import Mathlib

/-!
Shallow embedding of the NeuriScout frontend (Next.js / TypeScript) together
with a spec-model of the backend pieces that are not part of the frontend
sources.  Pure functions of the source are translated into Lean functions;
React state updates are translated into explicit state-passing functions,
and network calls are parametrised by an explicit fetch outcome.
-/

/-- frontend/src/lib/api.ts, interface Paper. -/
structure Paper where
  id : String
  title : String
  abstract : String
  authors : String
  affiliation : String
  session : String
  paper_url : String
  neurips_virtualsite_url : String
  openreview_url : String
  start_time : Option String
  day : Option String
  ampm : Option String
  poster_position : Option String
  distance : Rat
  deriving DecidableEq

/-- frontend/src/app/page.tsx: the filters state object
(affiliation, author, session, day, each a list of selected values). -/
structure HomeFilters where
  affiliation : List String
  author : List String
  session : List String
  day : List String
  deriving DecidableEq

/-- The JSON body assembled by searchPapers (frontend/src/lib/api.ts):
the query is always present, the filter fields are merged in when a filter
object is passed, and limit and threshold are included exactly when the
caller passed them (the source checks them against undefined). -/
structure SearchRequestBody where
  query : String
  filters : Option HomeFilters
  limit : Option Nat
  threshold : Option Rat
  deriving DecidableEq

/-- frontend/src/lib/api.ts, searchPapers: body construction from the four
arguments (lines 26-31 of the source function). -/
def searchPapersBody (query : String) (filters : Option HomeFilters)
    (limit : Option Nat) (threshold : Option Rat) : SearchRequestBody :=
  { query := query, filters := filters, limit := limit, threshold := threshold }

/-- Outcome of one HTTP fetch: an ok response with a parsed JSON body,
a non-ok HTTP status, or a thrown network error. -/
inductive HttpReply (α : Type) where
  | ok (body : α)
  | notOk (status : Nat)
  | netError (message : String)
  deriving DecidableEq

/-- A successful search response body is either the wrapped object form
with a results field, or a bare array of results. -/
inductive SearchResponse where
  | wrapped (results : List Paper)
  | bare (results : List Paper)
  deriving DecidableEq

/-- frontend/src/lib/api.ts, searchPapers: a non-ok response throws
(Failed to fetch papers); a network error propagates; otherwise the parsed
body is returned. -/
def searchPapersResult (reply : HttpReply SearchResponse) :
    Except String SearchResponse :=
  match reply with
  | .ok body => .ok body
  | .notOk _ => .error "Failed to fetch papers"
  | .netError m => .error m

/-- frontend/src/app/page.tsx, handleSearch line 79: results.results or
results.  A JS array field is truthy even when empty, so the wrapped form
always yields its results field; a bare array has no results field
(undefined, falsy), so the array itself is used. -/
def resolveResults : SearchResponse → List Paper
  | .wrapped rs => rs
  | .bare rs => rs

/-- State of the Home component (frontend/src/app/page.tsx) restricted to
the fields the search and basket logic reads and writes. -/
structure HomeState where
  query : String
  papers : List Paper
  loading : Bool
  filters : HomeFilters
  limit : Nat
  threshold : Rat
  selectedPapers : List Paper
  basket : List Paper
  deriving DecidableEq

/-- Initial Home state: page.tsx lines 18-28.  Line 25 initialises the
threshold state to 0.6; the comment on that line says the default distance
is 0.4. -/
def homeInit : HomeState :=
  { query := ""
  , papers := []
  , loading := false
  , filters := { affiliation := [], author := [], session := [], day := [] }
  , limit := 10
  , threshold := (6 : Rat)/10
  , selectedPapers := []
  , basket := [] }

/-- page.tsx handleSearch line 78: searchPapers is called with the current
query, filters, limit and threshold state, all defined. -/
def handleSearchRequest (s : HomeState) : SearchRequestBody :=
  searchPapersBody s.query (some s.filters) (some s.limit) (some s.threshold)

/-- page.tsx handleSearch (lines 74-86): on a successful response the
papers state becomes the resolved result list and the selection resets;
on any thrown error the catch block only logs to the console, so the
papers state is left untouched; finally clears the loading flag. -/
def handleSearch (s : HomeState) (reply : HttpReply SearchResponse) : HomeState :=
  match searchPapersResult reply with
  | .ok results =>
      { s with papers := resolveResults results, selectedPapers := [], loading := false }
  | .error _ => { s with loading := false }

/-- A concrete paper used to instantiate counterexamples and witnesses. -/
def samplePaper : Paper :=
  { id := "p1"
  , title := "Sample paper"
  , abstract := ""
  , authors := "A. Author"
  , affiliation := "MIT"
  , session := "Poster"
  , paper_url := "u"
  , neurips_virtualsite_url := "v"
  , openreview_url := "w"
  , start_time := none
  , day := none
  , ampm := none
  , poster_position := none
  , distance := 0 }

/-- frontend/src/app/components/ChatPanel.tsx, interface Message:
role user or assistant, content, optional isError flag (absent means
false). -/
inductive Role where
  | user
  | assistant
  deriving DecidableEq

/-- A transcript entry of the chat panel. -/
structure Message where
  role : Role
  content : String
  isError : Bool
  deriving DecidableEq

/-- The two ways a chat submission can be triggered: the submit button
(ChatPanel.tsx lines 474-480, disabled while loading or when the trimmed
input is empty) and the Enter key handler on the textarea (lines 464-469,
which calls handleSend directly). -/
inductive SubmitPath where
  | button
  | enterKey
  deriving DecidableEq

/-- The truthiness test the source applies to input.trim(): the trimmed
string is empty exactly when the input consists of whitespace only. -/
def isBlank (s : String) : Bool :=
  s.data.all Char.isWhitespace

/-- ChatPanel state restricted to the fields handleSend reads and writes,
plus a ghost counter of in-flight chatWithPapers calls. -/
structure ChatState where
  messages : List Message
  input : String
  loading : Bool
  showApiKeyManager : Bool
  pending : Nat
  deriving DecidableEq

/-- Initial ChatPanel state: messages empty, input empty, not loading
(ChatPanel.tsx lines 25-29). -/
def chatInit : ChatState :=
  { messages := [], input := "", loading := false
  , showApiKeyManager := false, pending := 0 }

/-- The synchronous half of handleSend (ChatPanel.tsx lines 163-170): if
the trimmed input is empty, return without doing anything; otherwise
append the user message, clear the input, set loading and start the
provider call (one more in-flight request). -/
def handleSendStart (s : ChatState) : ChatState :=
  if isBlank s.input then s
  else
    { s with
      messages := s.messages ++ [{ role := .user, content := s.input, isError := false }]
    , input := ""
    , loading := true
    , pending := s.pending + 1 }

/-- Whether a submission path can invoke handleSend in a given state: the
button is disabled while loading or when the trimmed input is empty; the
Enter key handler invokes handleSend unconditionally. -/
def submitEnabled : SubmitPath → ChatState → Bool
  | .button, s => !(s.loading || isBlank s.input)
  | .enterKey, _ => true

/-- ChatPanel.tsx line 192: the error text shown for a failed call is the
error message when it is truthy, else the fixed fallback text. -/
def chatErrorText (errMessage : Option String) : String :=
  match errMessage with
  | some m =>
      if m == "" then "Error: Could not fetch answer. Please check your API key."
      else m
  | none => "Error: Could not fetch answer. Please check your API key."

/-- Events of the chat panel: typing into the textarea, a submission
attempt through one of the two paths, and the resolution of an in-flight
provider call (success or failure). -/
inductive ChatEvent where
  | setInput (text : String)
  | submit (path : SubmitPath)
  | providerSuccess (answer : String)
  | providerFailure (errMessage : Option String)
  deriving DecidableEq

/-- One step of the chat panel (ChatPanel.tsx handleSend, lines 163-202,
and the input form, lines 460-481).  A provider success appends the
assistant answer; a provider failure appends a single error-marked
assistant entry and opens the key manager; both clear the loading flag in
the finally block and retire one in-flight call. -/
def chatStep (s : ChatState) : ChatEvent → ChatState
  | .setInput t => { s with input := t }
  | .submit p => if submitEnabled p s then handleSendStart s else s
  | .providerSuccess a =>
      if s.pending = 0 then s
      else
        { s with
          messages := s.messages ++ [{ role := .assistant, content := a, isError := false }]
        , loading := false
        , pending := s.pending - 1 }
  | .providerFailure m =>
      if s.pending = 0 then s
      else
        { s with
          messages := s.messages ++ [{ role := .assistant, content := chatErrorText m, isError := true }]
        , loading := false
        , showApiKeyManager := true
        , pending := s.pending - 1 }

/-- Run a sequence of chat events from the initial ChatPanel state. -/
def chatRun (events : List ChatEvent) : ChatState :=
  events.foldl chatStep chatInit

/-- frontend/src/lib/api.ts: the shape returned by the filters endpoint
and by the hard-coded fallback of getFilters. -/
structure FiltersResponse where
  affiliations : List String
  authors : List String
  sessions : List String
  days : List String
  ampm : List String
  deriving DecidableEq

/-- The default filter shape getFilters falls back to
(api.ts lines 78 and 83). -/
def defaultFiltersResponse : FiltersResponse :=
  { affiliations := [], authors := [], sessions := [], days := []
  , ampm := ["AM", "PM"] }

/-- frontend/src/lib/api.ts, getFilters (lines 73-85): a non-ok status or
a thrown fetch error is caught, logged, and replaced by the default
shape; the function always returns a FiltersResponse and never
propagates an error. -/
def getFilters (reply : HttpReply FiltersResponse) : FiltersResponse :=
  match reply with
  | .ok body => body
  | .notOk _ => defaultFiltersResponse
  | .netError _ => defaultFiltersResponse

/-- frontend/src/lib/api.ts, interface GeminiModel: a provider model
entry. -/
structure ProviderModel where
  name : String
  display_name : String
  description : String
  deriving DecidableEq

/-- Body of the gemini-models endpoint response: a models list on
success, or a body carrying an error message. -/
structure ModelsResponse where
  models : List ProviderModel
  error : Option String
  deriving DecidableEq

/-- Modelled from the spec: the backend model-discovery endpoint
(backend/main.py is not under src).  Spec section 6: model discovery maps
an api key to a models list or a response carrying error; scenario D: an
invalid key yields a response carrying error, never an uncaught fault.
So an invalid key produces an ok reply whose body carries the error. -/
def geminiModelsEndpoint (keyValid : Bool) (models : List ProviderModel) :
    HttpReply ModelsResponse :=
  if keyValid then .ok { models := models, error := none }
  else .ok { models := [], error := some "Invalid API key" }

/-- frontend/src/lib/api.ts, getGeminiModels (lines 93-105): a non-ok
status throws (Failed to fetch Gemini models); otherwise the parsed body
is returned. -/
def getGeminiModels (reply : HttpReply ModelsResponse) :
    Except String ModelsResponse :=
  match reply with
  | .ok body => .ok body
  | .notOk _ => .error "Failed to fetch Gemini models"
  | .netError m => .error m

/-- The model-list state of the ChatPanel touched by fetchGeminiModels. -/
structure ModelListState where
  geminiModels : List ProviderModel
  selectedGeminiModel : String
  loadingModels : Bool
  deriving DecidableEq

/-- ChatPanel.tsx, fetchGeminiModels (lines 85-101): when the result has
a non-empty models list, store it and select the saved model when truthy,
else the first listed model; when the result carries an error, or the
call threw, only log to the console; the finally block always clears
loadingModels.  The function is total: every outcome leaves the state
usable. -/
def fetchGeminiModels (st : ModelListState) (savedModel : Option String)
    (result : Except String ModelsResponse) : ModelListState :=
  match result with
  | .ok r =>
      match r.models with
      | m :: rest =>
          { st with
            geminiModels := m :: rest
          , selectedGeminiModel :=
              match savedModel with
              | some sm => if sm == "" then m.name else sm
              | none => m.name
          , loadingModels := false }
      | [] => { st with loadingModels := false }
  | .error _ => { st with loadingModels := false }

/-- contexts/BookmarksContext.tsx, addBookmark (lines 46-54): skip when a
bookmark with the same id is already present, else append. -/
def addBookmark (prev : List Paper) (paper : Paper) : List Paper :=
  if prev.any (fun p => p.id == paper.id) then prev
  else prev ++ [paper]

/-- frontend/src/app/page.tsx, addToBasket (lines 104-112): append the
selected papers whose id is not yet in the basket; when none are new the
basket state is left as is. -/
def addToBasket (basket selectedPapers : List Paper) : List Paper :=
  let newPapers :=
    selectedPapers.filter (fun paper => !(basket.any (fun b => b.id == paper.id)))
  if newPapers.length > 0 then basket ++ newPapers else basket

/-- Deep Dive capacity (the page variant with a Deep Dive set). -/
def MAX_DEEP_DIVE_PAPERS : Nat := 25

/-- toggleDeepDivePaper (the Home variant storing a Deep Dive set): when
a paper with the same id is present, remove it; when the set is full,
leave it unchanged; otherwise append the paper. -/
def toggleDeepDivePaper (prev : List Paper) (paper : Paper) : List Paper :=
  if prev.any (fun p => p.id == paper.id) then
    prev.filter (fun p => !(p.id == paper.id))
  else if MAX_DEEP_DIVE_PAPERS ≤ prev.length then prev
  else prev ++ [paper]

/-- Modelled from the spec: a provider file handle of the Deep-Dive
session cache (spec section 4.4); the backend cache implementation is not
under src.  Value: provider handle plus expiry. -/
structure FileHandle where
  remoteId : String
  expiresAt : Nat
  deriving DecidableEq

/-- Modelled from the spec: the Deep-Dive session cache restricted to one
fixed (sessionIdentity, providerName) pair, mapping paperId to its
handle.  Newer entries are consed in front and shadow older ones. -/
abbrev DeepDiveCache := List (String × FileHandle)

/-- Look up the newest cache entry for a paper id. -/
def cacheLookup (c : DeepDiveCache) (paperId : String) : Option FileHandle :=
  match c with
  | [] => none
  | e :: rest => if e.1 == paperId then some e.2 else cacheLookup rest paperId

/-- Modelled from the spec: uploading a paper to the provider at time now
yields a fresh handle whose expiry is an implementer-chosen TTL from
now. -/
def uploadPaper (ttl now : Nat) (paperId : String) : FileHandle :=
  { remoteId := paperId, expiresAt := now + ttl }

/-- Modelled from the spec (section 4.4 contract): on each turn, for every
referenced paper, look up the cache; a hit with an unexpired entry is
reused; a miss or an expired entry triggers an upload and stores the new
handle.  Returns the updated cache and the ids uploaded by this
resolution (empty or a singleton). -/
def resolvePaper (ttl now : Nat) (c : DeepDiveCache) (paperId : String) :
    DeepDiveCache × List String :=
  match cacheLookup c paperId with
  | some h =>
      if now < h.expiresAt then (c, [])
      else ((paperId, uploadPaper ttl now paperId) :: c, [paperId])
  | none => ((paperId, uploadPaper ttl now paperId) :: c, [paperId])

/-- Resolve every paper referenced by one chat turn, accumulating the ids
uploaded during the turn. -/
def resolveTurn (ttl now : Nat) (c : DeepDiveCache) (pids : List String) :
    DeepDiveCache × List String :=
  match pids with
  | [] => (c, [])
  | pid :: rest =>
      let r := resolvePaper ttl now c pid
      let r2 := resolveTurn ttl now r.1 rest
      (r2.1, r.2 ++ r2.2)

/-- Run consecutive chat turns, each given as its time and its referenced
paper ids, threading the session cache and accumulating all uploads. -/
def runTurns (ttl : Nat) (c : DeepDiveCache) (turns : List (Nat × List String)) :
    DeepDiveCache × List String :=
  match turns with
  | [] => (c, [])
  | (now, pids) :: rest =>
      let r := resolveTurn ttl now c pids
      let r2 := runTurns ttl r.1 rest
      (r2.1, r.2 ++ r2.2)

/-- The cached entry for pid, if any, is unexpired at every time in the
given list. -/
def pidCovered (pid : String) (times : List Nat) (c : DeepDiveCache) : Prop :=
  ∃ h, cacheLookup c pid = some h ∧ ∀ u ∈ times, u < h.expiresAt

/-- Invariant threaded through a conversation: either pid was never
uploaded and is absent from the cache, or it was uploaded at most once
and its entry is unexpired at every turn time. -/
def cacheInv (pid : String) (times : List Nat) (c : DeepDiveCache) (cnt : Nat) : Prop :=
  (cacheLookup c pid = none ∧ cnt = 0) ∨ (cnt ≤ 1 ∧ pidCovered pid times c)

/-- The chat panel state reached by submitting a first question and then
typing a second one while the first provider call is still in flight. -/
def c3State : ChatState :=
  chatRun [ChatEvent.setInput "q1", ChatEvent.submit SubmitPath.button,
           ChatEvent.setInput "q2"]
/-- The chat panel state right after one question has been submitted: a
provider call is in flight. -/
def c4State : ChatState :=
  chatRun [ChatEvent.setInput "q", ChatEvent.submit SubmitPath.button]

/-- C1: the claim says every search submitted with the similarity slider
untouched sends threshold 0.4; the code initialises the threshold state
to 0.6 (despite its own comment saying the default distance is 0.4) and
handleSearch sends that state value unchanged, so the value sent is 0.6,
not 0.4. -/
theorem C1_default_threshold_sent_is_06 :
    (handleSearchRequest homeInit).threshold = some ((6 : Rat)/10)
    ∧ ¬ ((6 : Rat)/10 = (4 : Rat)/10) := by
  refine ⟨rfl, by norm_num⟩

/-- C2 counterexample: with previous results displayed, a failed search
(HTTP 500) does not empty the result set: the previously displayed
results are retained, contradicting the claim that the user-visible
result set becomes empty. -/
theorem C2_counterexample :
    (handleSearch { homeInit with papers := [samplePaper] }
        (HttpReply.notOk 500)).papers ≠ [] := by
  simp [handleSearch, searchPapersResult]

/-- C2 amended: for every search whose backend call fails (non-ok
response or thrown fetch error), the error is only logged to the console;
the previously displayed results are retained unchanged and only the
loading flag is cleared, with no inline notice state set. -/
theorem C2_failure_retains_previous_results (s : HomeState) (status : Nat)
    (msg : String) :
    handleSearch s (HttpReply.notOk status) = { s with loading := false }
    ∧ handleSearch s (HttpReply.netError msg) = { s with loading := false } := by
  exact ⟨rfl, rfl⟩

/-- C3: the claim says no submission path can start a second chat request
while one is pending; but from the reachable state c3State (first
question submitted and in flight, second question typed), the Enter key
path starts a second in-flight call: pending goes from 1 to 2 while
loading is still true. -/
theorem C3_enter_key_starts_second_call :
    c3State.loading = true
    ∧ c3State.pending = 1
    ∧ (chatStep c3State (ChatEvent.submit SubmitPath.enterKey)).pending = 2 := by
  refine ⟨by decide, by decide, by decide⟩

/-- C6: for every backend failure of filter discovery (non-ok response or
thrown fetch error), getFilters returns the default shape with empty
lists and ampm AM, PM; getFilters is a total function, so no error is
propagated to its caller. -/
theorem C6_filters_degrade_to_default (status : Nat) (msg : String) :
    getFilters (HttpReply.notOk status) = defaultFiltersResponse
    ∧ getFilters (HttpReply.netError msg) = defaultFiltersResponse
    ∧ defaultFiltersResponse =
        { affiliations := [], authors := [], sessions := [], days := []
        , ampm := ["AM", "PM"] } := by
  exact ⟨rfl, rfl, rfl⟩

/-- C7: a model-discovery call with an invalid key produces a response
body carrying error (spec-modelled backend), and the frontend
fetchGeminiModels handler consumes it totally: the model list and
selection are left usable and only the loadingModels flag is cleared, so
the chat flow never crashes with an uncaught fault. -/
theorem C7_invalid_key_structured_error (models : List ProviderModel)
    (st : ModelListState) (savedModel : Option String) :
    getGeminiModels (geminiModelsEndpoint false models)
        = Except.ok { models := [], error := some "Invalid API key" }
    ∧ fetchGeminiModels st savedModel
        (getGeminiModels (geminiModelsEndpoint false models))
        = { st with loadingModels := false } := by
  exact ⟨rfl, rfl⟩

/-- C8: the search caller accepts both response forms: whether the body
is the wrapped object with a results field or a bare array, the paper
list displayed after a successful search equals that array of results. -/
theorem C8_both_response_forms_accepted (s : HomeState) (rs : List Paper) :
    (handleSearch s (HttpReply.ok (SearchResponse.wrapped rs))).papers = rs
    ∧ (handleSearch s (HttpReply.ok (SearchResponse.bare rs))).papers = rs := by
  exact ⟨rfl, rfl⟩

/-- Every chat panel step leaves the transcript unchanged or extends it
at the end. -/
lemma chatStep_messages_extend (s : ChatState) (e : ChatEvent) :
    ∃ tail, (chatStep s e).messages = s.messages ++ tail := by
  cases e with
  | setInput t => exact ⟨[], by simp [chatStep]⟩
  | submit p =>
      by_cases he : submitEnabled p s = true
      · by_cases hb : isBlank s.input = true
        · exact ⟨[], by simp [chatStep, he, handleSendStart, hb]⟩
        · refine ⟨[{ role := .user, content := s.input, isError := false }], ?_⟩
          simp [chatStep, he, handleSendStart, hb]
      · exact ⟨[], by simp [chatStep, he]⟩
  | providerSuccess a =>
      by_cases hp : s.pending = 0
      · exact ⟨[], by simp [chatStep, hp]⟩
      · refine ⟨[{ role := .assistant, content := a, isError := false }], ?_⟩
        simp [chatStep, hp]
  | providerFailure m =>
      by_cases hp : s.pending = 0
      · exact ⟨[], by simp [chatStep, hp]⟩
      · refine ⟨[{ role := .assistant, content := chatErrorText m, isError := true }], ?_⟩
        simp [chatStep, hp]

/-- C4: for every chat submission whose provider call fails, exactly one
error-marked assistant entry is appended to the transcript, the user
question and all prior turns are retained unchanged (the new transcript
is the old one plus the single error entry), a provider success appends
exactly the assistant answer, and an assistant answer entry (non-error)
is appended by no event other than a provider success. -/
theorem C4_failure_appends_single_error_entry (s : ChatState)
    (m : Option String) (a : String) (h : 1 ≤ s.pending) :
    (chatStep s (ChatEvent.providerFailure m)).messages
        = s.messages
            ++ [{ role := .assistant, content := chatErrorText m, isError := true }]
    ∧ (chatStep s (ChatEvent.providerSuccess a)).messages
        = s.messages ++ [{ role := .assistant, content := a, isError := false }]
    ∧ ∀ (e : ChatEvent) (msg : Message),
        (chatStep s e).messages = s.messages ++ [msg] →
        msg.role = Role.assistant → msg.isError = false →
        ∃ ans, e = ChatEvent.providerSuccess ans := by
  have hp : ¬ s.pending = 0 := by omega
  refine ⟨by simp [chatStep, hp], by simp [chatStep, hp], ?_⟩
  intro e msg hmsg hrole herr
  cases e with
  | setInput t =>
      exfalso
      simp [chatStep] at hmsg
  | submit p =>
      exfalso
      by_cases he : submitEnabled p s = true
      · by_cases hb : isBlank s.input = true
        · simp [chatStep, he, handleSendStart, hb] at hmsg
        · simp [chatStep, he, handleSendStart, hb] at hmsg
          rw [← hmsg] at hrole
          exact absurd hrole (by simp)
      · simp [chatStep, he] at hmsg
  | providerSuccess ans => exact ⟨ans, rfl⟩
  | providerFailure m2 =>
      exfalso
      simp [chatStep, hp] at hmsg
      rw [← hmsg] at herr
      exact absurd herr (by simp)

/-- C9: the chat transcript is append-only: every single event and every
event sequence either leaves the message list unchanged or appends
entries at the end, so no operation modifies or removes an existing
entry while the panel is open, and turns accumulate in submission
order. -/
theorem C9_messages_append_only (s : ChatState) (e : ChatEvent)
    (events : List ChatEvent) :
    (∃ tail, (chatStep s e).messages = s.messages ++ tail)
    ∧ (∃ tail2, (List.foldl chatStep s events).messages = s.messages ++ tail2) := by
  refine ⟨chatStep_messages_extend s e, ?_⟩
  induction events generalizing s with
  | nil => exact ⟨[], by simp⟩
  | cons ev evs ih =>
      obtain ⟨t1, h1⟩ := chatStep_messages_extend s ev
      obtain ⟨t2, h2⟩ := ih (chatStep s ev)
      refine ⟨t1 ++ t2, ?_⟩
      simp only [List.foldl_cons]
      rw [h2, h1, List.append_assoc]

/-- Appending a paper whose id is absent preserves distinctness of ids. -/
lemma nodup_ids_append_one {l : List Paper} {p : Paper}
    (hl : (l.map Paper.id).Nodup)
    (habs : l.any (fun q => q.id == p.id) = false) :
    ((l ++ [p]).map Paper.id).Nodup := by
  rw [List.map_append]
  refine List.Nodup.append hl (by simp) ?_
  intro x hx hx2
  simp only [List.map_cons, List.map_nil, List.mem_singleton] at hx2
  subst hx2
  obtain ⟨q, hq, hqid⟩ := List.mem_map.mp hx
  have := List.any_eq_false.mp habs q hq
  simp [hqid] at this

/-- Filtering preserves distinctness of ids. -/
lemma nodup_ids_filter {l : List Paper} (f : Paper → Bool)
    (hl : (l.map Paper.id).Nodup) :
    (((l.filter f)).map Paper.id).Nodup := by
  exact List.Nodup.sublist (List.Sublist.map Paper.id (List.filter_sublist l)) hl

/-- C10 counterexample: the Deep Dive add operation invoked on a paper
whose id is already present does not leave the collection unchanged; it
removes the paper instead of being a no-op. -/
theorem C10_counterexample :
    toggleDeepDivePaper [samplePaper] samplePaper ≠ [samplePaper] := by
  simp [toggleDeepDivePaper]

/-- C10 amended: the bookmarks add and the basket add check membership by
id and leave already-present papers unchanged; the Deep Dive toggle
instead removes a paper whose id is already present; and all three
operations preserve the at-most-one-paper-per-id invariant (for the
basket, given the incoming selection itself has no duplicate ids). -/
theorem C10_amended_dedup (bs basket sel dd : List Paper) (p : Paper)
    (hbs : (bs.map Paper.id).Nodup) (hbk : (basket.map Paper.id).Nodup)
    (hsel : (sel.map Paper.id).Nodup) (hdd : (dd.map Paper.id).Nodup) :
    (bs.any (fun q => q.id == p.id) = true → addBookmark bs p = bs)
    ∧ ((addBookmark bs p).map Paper.id).Nodup
    ∧ ((addToBasket basket sel).map Paper.id).Nodup
    ∧ (dd.any (fun q => q.id == p.id) = true →
        toggleDeepDivePaper dd p = dd.filter (fun q => !(q.id == p.id)))
    ∧ ((toggleDeepDivePaper dd p).map Paper.id).Nodup := by
  refine ⟨?_, ?_, ?_, ?_, ?_⟩
  · intro h
    simp [addBookmark, h]
  · by_cases h : bs.any (fun q => q.id == p.id) = true
    · simpa [addBookmark, h] using hbs
    · have h2 : bs.any (fun q => q.id == p.id) = false := by
        simpa using h
      rw [addBookmark, if_neg (by simp [h2])]
      exact nodup_ids_append_one hbs h2
  · rw [addToBasket]
    by_cases h :
        (sel.filter (fun paper => !(basket.any (fun b => b.id == paper.id)))).length > 0
    · rw [if_pos h, List.map_append]
      refine List.Nodup.append hbk (nodup_ids_filter _ hsel) ?_
      intro x hx hx2
      obtain ⟨q, hq, hqid⟩ := List.mem_map.mp hx2
      have hqf := (List.mem_filter.mp hq).2
      obtain ⟨b, hb, hbid⟩ := List.mem_map.mp hx
      have hnone : basket.any (fun b2 => b2.id == q.id) = false := by
        simpa using hqf
      have := List.any_eq_false.mp hnone b hb
      simp [hbid, hqid] at this
    · rw [if_neg h]
      exact hbk
  · intro h
    simp [toggleDeepDivePaper, h]
  · by_cases h : dd.any (fun q => q.id == p.id) = true
    · rw [toggleDeepDivePaper, if_pos h]
      exact nodup_ids_filter _ hdd
    · have h2 : dd.any (fun q => q.id == p.id) = false := by
        simpa using h
      rw [toggleDeepDivePaper, if_neg (by simp [h2])]
      by_cases hfull : MAX_DEEP_DIVE_PAPERS ≤ dd.length
      · rw [if_pos hfull]
        exact hdd
      · rw [if_neg hfull]
        exact nodup_ids_append_one hdd h2

/-- A cons with a different key does not change the lookup result. -/
lemma cacheLookup_cons_ne (q pid : String) (h : FileHandle)
    (c : DeepDiveCache) (hne : (q == pid) = false) :
    cacheLookup ((q, h) :: c) pid = cacheLookup c pid := by
  simp [cacheLookup, hne]

/-- The invariant survives a cache extension under a different key. -/
lemma cacheInv_cons_ne (pid q : String) (h : FileHandle) (times : List Nat)
    (c : DeepDiveCache) (cnt : Nat) (hne : (q == pid) = false)
    (hinv : cacheInv pid times c cnt) :
    cacheInv pid times ((q, h) :: c) cnt := by
  rcases hinv with ⟨hn, h0⟩ | ⟨hc, hh, hlk, hcov⟩
  · exact Or.inl ⟨by rw [cacheLookup_cons_ne q pid h c hne]; exact hn, h0⟩
  · exact Or.inr ⟨hc, hh, by rw [cacheLookup_cons_ne q pid h c hne]; exact hlk, hcov⟩

/-- Resolving one paper during a turn preserves the invariant: the target
paper is uploaded at most when it was never uploaded before, and the
stored handle then covers every turn time. -/
lemma resolvePaper_inv (ttl now : Nat) (times : List Nat) (pid q : String)
    (hnow : now ∈ times) (hspanNow : ∀ u ∈ times, u < now + ttl)
    (c : DeepDiveCache) (cnt : Nat) (hinv : cacheInv pid times c cnt) :
    cacheInv pid times (resolvePaper ttl now c q).1
      (cnt + (resolvePaper ttl now c q).2.count pid) := by
  by_cases hq : q = pid
  · subst hq
    cases hl : cacheLookup c q with
    | none =>
        have hcnt : cnt = 0 := by
          rcases hinv with ⟨_, h0⟩ | ⟨_, hh, hlk, _⟩
          · exact h0
          · rw [hl] at hlk
            exact absurd hlk (by simp)
        simp only [resolvePaper, hl, List.count_cons, List.count_nil,
          beq_self_eq_true, if_pos]
        refine Or.inr ⟨by omega, uploadPaper ttl now q, ?_, ?_⟩
        · simp [cacheLookup]
        · intro u hu
          simpa [uploadPaper] using hspanNow u hu
    | some h =>
        rcases hinv with ⟨hn, _⟩ | ⟨hc, hh, hlk, hcov⟩
        · rw [hl] at hn
          exact absurd hn (by simp)
        · rw [hl] at hlk
          have hhh : hh = h := by
            injection hlk with he
            exact he.symm
          subst hhh
          have hlt : now < hh.expiresAt := hcov now hnow
          simp only [resolvePaper, hl, if_pos hlt, List.count_nil]
          exact Or.inr ⟨by omega, hh, by rw [hl], hcov⟩
  · have hqb : (q == pid) = false := by
      simp [hq]
    cases hl : cacheLookup c q with
    | none =>
        simp only [resolvePaper, hl, List.count_cons, List.count_nil, hqb,
          if_false, Bool.false_eq_true, ite_false]
        have := cacheInv_cons_ne pid q (uploadPaper ttl now q) times c cnt hqb hinv
        simpa using this
    | some h =>
        by_cases hlt : now < h.expiresAt
        · simp only [resolvePaper, hl, if_pos hlt, List.count_nil]
          simpa using hinv
        · simp only [resolvePaper, hl, if_neg hlt, List.count_cons,
            List.count_nil, hqb, Bool.false_eq_true, ite_false]
          have := cacheInv_cons_ne pid q (uploadPaper ttl now q) times c cnt hqb hinv
          simpa using this

/-- Resolving a whole turn preserves the invariant, adding the uploads of
the turn to the count. -/
lemma resolveTurn_inv (ttl now : Nat) (times : List Nat) (pid : String)
    (hnow : now ∈ times) (hspanNow : ∀ u ∈ times, u < now + ttl)
    (pids : List String) :
    ∀ (c : DeepDiveCache) (cnt : Nat), cacheInv pid times c cnt →
      cacheInv pid times (resolveTurn ttl now c pids).1
        (cnt + (resolveTurn ttl now c pids).2.count pid) := by
  induction pids with
  | nil =>
      intro c cnt hinv
      simpa [resolveTurn] using hinv
  | cons pidq rest ih =>
      intro c cnt hinv
      have h1 := resolvePaper_inv ttl now times pid pidq hnow hspanNow c cnt hinv
      have h2 := ih (resolvePaper ttl now c pidq).1 _ h1
      simpa [resolveTurn, List.count_append, Nat.add_assoc] using h2

/-- Running all turns preserves the invariant, accumulating the uploads
of every turn. -/
lemma runTurns_inv (ttl : Nat) (times : List Nat) (pid : String)
    (hspan : ∀ t ∈ times, ∀ u ∈ times, u < t + ttl)
    (turns : List (Nat × List String)) :
    ∀ (c : DeepDiveCache) (cnt : Nat), (∀ x ∈ turns, x.1 ∈ times) →
      cacheInv pid times c cnt →
      cacheInv pid times (runTurns ttl c turns).1
        (cnt + (runTurns ttl c turns).2.count pid) := by
  induction turns with
  | nil =>
      intro c cnt _ hinv
      simpa [runTurns] using hinv
  | cons t rest ih =>
      intro c cnt hmem hinv
      obtain ⟨now, pids⟩ := t
      have hnow : now ∈ times := hmem (now, pids) (List.mem_cons_self _ _)
      have hspanNow : ∀ u ∈ times, u < now + ttl := fun u hu => hspan now hnow u hu
      have h1 := resolveTurn_inv ttl now times pid hnow hspanNow pids c cnt hinv
      have h2 := ih (resolveTurn ttl now c pids).1 _
        (fun x hx => hmem x (List.mem_cons_of_mem _ hx)) h1
      simpa [runTurns, List.count_append, Nat.add_assoc] using h2

/-- C5: for a fixed session and provider, consecutive chat turns cause at
most one upload of any given paper across all turns, provided no stored
entry expires during the conversation (every turn time lies within one
TTL of every other, so the first upload is reused by every later
turn). -/
theorem C5_at_most_one_upload_per_paper (ttl : Nat)
    (turns : List (Nat × List String)) (pid : String)
    (hSpan : ∀ t ∈ turns.map Prod.fst, ∀ u ∈ turns.map Prod.fst, u < t + ttl) :
    ((runTurns ttl [] turns).2.count pid) ≤ 1 := by
  have hinv0 : cacheInv pid (turns.map Prod.fst) [] 0 := Or.inl ⟨rfl, rfl⟩
  have h := runTurns_inv ttl (turns.map Prod.fst) pid hSpan turns [] 0
    (fun x hx => List.mem_map_of_mem Prod.fst hx) hinv0
  rcases h with ⟨_, h0⟩ | ⟨hc, _⟩
  · omega
  · omega


/-- Witness for C4 at a concrete in-flight state: the hypothesis holds
and a provider failure appends exactly the single error-marked entry. -/
theorem C4_failure_witness :
    1 ≤ c4State.pending
    ∧ (chatStep c4State (ChatEvent.providerFailure (some "boom"))).messages
        = c4State.messages
            ++ [{ role := .assistant, content := chatErrorText (some "boom")
                , isError := true }] :=
  ⟨by decide,
   (C4_failure_appends_single_error_entry c4State (some "boom") "ans" (by decide)).1⟩

/-- Witness for C5 at a concrete three-turn conversation referencing the
same paper each turn: the span hypothesis holds and the paper is
uploaded at most once. -/
theorem C5_upload_witness :
    (∀ t ∈ ([(0, ["p"]), (0, ["p"]), (0, ["p"])] : List (Nat × List String)).map Prod.fst,
      ∀ u ∈ ([(0, ["p"]), (0, ["p"]), (0, ["p"])] : List (Nat × List String)).map Prod.fst,
      u < t + 1)
    ∧ ((runTurns 1 [] [(0, ["p"]), (0, ["p"]), (0, ["p"])]).2.count "p") ≤ 1 :=
  ⟨by decide,
   C5_at_most_one_upload_per_paper 1 [(0, ["p"]), (0, ["p"]), (0, ["p"])] "p" (by decide)⟩

/-- Witness for the amended C10 at concrete inputs: the distinctness
hypotheses hold and adding a fresh paper to an empty bookmark list keeps
the ids distinct. -/
theorem C10_amended_witness :
    (([samplePaper].map Paper.id).Nodup)
    ∧ ((addBookmark [] samplePaper).map Paper.id).Nodup :=
  ⟨by decide,
   (C10_amended_dedup [] [] [] [samplePaper] samplePaper (by decide) (by decide)
      (by decide) (by decide)).2.1⟩
